import Mathlib

/-!
Verification of the veneur core sources against its specification.

The development shallowly embeds the two Go source files:
* `src/unnamed/part_000` — the `main` entry point (flag handling, config
  loading, Sentry error path, HTTP serving / blocking).
* `src/trace/opentracing.go` — the OpenTracing adapter: `spanContext`,
  `Span`, `Tracer.Inject`, `Tracer.Extract` and their helpers.

Components of the repository that the spec describes but whose code is not
among the provided sources (the distribution sketch, the worker-routing
digest, the histogram accumulator, `Trace.context`, the protobuf codec)
are modelled from the spec; each such definition carries a doc comment
beginning with `Modelled from the spec:`.

Go-level conventions used throughout the embedding:
* Go `error` values are `GoError`; fallible calls return `Except` or pairs
  with an `Option GoError` component, mirroring Go multiple returns.
* Go panics are modelled by the `Except GoPanic` monad: a function body
  that can panic is a `...Body` definition returning `Except GoPanic _`,
  and the exported function applies the `defer`/`recover` wrapper that the
  source installs.
* Go maps of strings are association lists with distinct keys; `mapInsert`
  is map assignment, `mapGet` is indexing (returning the zero value `""`
  for a missing key), and iteration visits the list in order.  All maps
  built by the embedded code have pairwise distinct keys, so the list
  order never influences any result below.
* Machine integers (`int64`) are `Int`, with explicit range conditions
  where the code (`strconv.ParseInt` with bit size 64) checks them.
-/

/-- Go panic values that the embedded code can raise: a failed type
assertion (interface conversion), or a nil-pointer dereference. -/
inductive GoPanic where
  | typeAssertion (got : String) (want : String)
  | nilPointer (what : String)
  deriving DecidableEq, Repr

/-- Go error values produced by the embedded code. -/
inductive GoError where
  | strError (msg : String)
  | contractViolation (details : GoPanic)
  | unsupportedSpanContext
  | unsupportedFormat
  deriving DecidableEq, Repr

/-- Decimal digit character for a digit value, as produced by
`strconv.FormatInt` base 10. -/
def digitChar : Nat → Char
  | 0 => '0'
  | 1 => '1'
  | 2 => '2'
  | 3 => '3'
  | 4 => '4'
  | 5 => '5'
  | 6 => '6'
  | 7 => '7'
  | 8 => '8'
  | _ => '9'

/-- Numeric value of a decimal digit character; `none` for a non-digit,
as rejected by `strconv.ParseInt` base 10. -/
def digitVal (c : Char) : Option Nat :=
  if c = '0' then some 0
  else if c = '1' then some 1
  else if c = '2' then some 2
  else if c = '3' then some 3
  else if c = '4' then some 4
  else if c = '5' then some 5
  else if c = '6' then some 6
  else if c = '7' then some 7
  else if c = '8' then some 8
  else if c = '9' then some 9
  else none

/-- Decimal digit string (most significant first) of a natural number,
as produced by `strconv.FormatInt` base 10 for the magnitude. -/
def natToDigits (n : Nat) : List Char :=
  if _h : n < 10 then [digitChar n]
  else natToDigits (n / 10) ++ [digitChar (n % 10)]
  decreasing_by exact Nat.div_lt_self (by omega) (by omega)

/-- Accumulating decimal parse of a digit list, as done by
`strconv.ParseInt` base 10; `none` on the first non-digit. -/
def parseDigits : Nat → List Char → Option Nat
  | acc, [] => some acc
  | acc, c :: cs =>
    match digitVal c with
    | some d => parseDigits (acc * 10 + d) cs
    | none => none

/-- Leading sign handling of `strconv.ParseInt`: strips one optional
leading minus or plus, reporting whether the number is negated. -/
def signSplit (l : List Char) : Bool × List Char :=
  match l with
  | [] => (false, [])
  | c :: cs =>
    if c = '-' then (true, cs)
    else if c = '+' then (false, cs)
    else (false, c :: cs)

/-- Embedding of `strconv.ParseInt(s, 10, 64)`: optional sign, a nonempty
run of decimal digits, and an int64 range check. -/
def parseInt64 (s : String) : Except GoError Int :=
  let sp := signSplit s.data
  if sp.2.isEmpty then .error (.strError "strconv.ParseInt: invalid syntax")
  else
    match parseDigits 0 sp.2 with
    | none => .error (.strError "strconv.ParseInt: invalid syntax")
    | some n =>
      if sp.1 then
        if (n : Int) ≤ 2 ^ 63 then .ok (-(n : Int))
        else .error (.strError "strconv.ParseInt: value out of range")
      else
        if (n : Int) < 2 ^ 63 then .ok (n : Int)
        else .error (.strError "strconv.ParseInt: value out of range")

/-- Embedding of `strconv.FormatInt(i, 10)`: decimal rendering of an
int64, minus sign first for negative values. -/
def formatInt (i : Int) : String :=
  if i < 0 then ⟨'-' :: natToDigits i.natAbs⟩ else ⟨natToDigits i.toNat⟩

theorem digitVal_digitChar (d : Nat) (h : d < 10) :
    digitVal (digitChar d) = some d := by
  interval_cases d <;> rfl

theorem parseDigits_append (l1 l2 : List Char) :
    ∀ acc, parseDigits acc (l1 ++ l2) =
      (parseDigits acc l1).bind (fun a => parseDigits a l2) := by
  induction l1 with
  | nil => intro acc; rfl
  | cons c cs ih =>
    intro acc
    simp only [List.cons_append, parseDigits]
    cases hd : digitVal c with
    | some d => exact ih _
    | none => rfl

theorem parseDigits_natToDigits (n : Nat) :
    ∀ acc, parseDigits acc (natToDigits n) =
      some (acc * 10 ^ (natToDigits n).length + n) := by
  induction n using Nat.strong_induction_on with
  | _ n ih =>
    intro acc
    by_cases h : n < 10
    · rw [natToDigits, dif_pos h]
      simp only [parseDigits, digitVal_digitChar n h, List.length_singleton,
        pow_one]
    · rw [natToDigits, dif_neg h]
      have hlt : n / 10 < n := Nat.div_lt_self (by omega) (by omega)
      rw [parseDigits_append]
      rw [ih (n / 10) hlt acc]
      simp only [Option.some_bind, parseDigits,
        digitVal_digitChar (n % 10) (Nat.mod_lt n (by omega)),
        List.length_append, List.length_singleton, Option.some.injEq]
      have hp : 10 ^ ((natToDigits (n / 10)).length + 1) =
          10 ^ (natToDigits (n / 10)).length * 10 := pow_succ 10 _
      rw [hp]
      have hr : acc * (10 ^ (natToDigits (n / 10)).length * 10) =
          acc * 10 ^ (natToDigits (n / 10)).length * 10 := by ring
      rw [hr]
      generalize acc * 10 ^ (natToDigits (n / 10)).length = q
      omega

theorem natToDigits_head (n : Nat) :
    ∃ c cs, natToDigits n = c :: cs ∧ (digitVal c).isSome := by
  induction n using Nat.strong_induction_on with
  | _ n ih =>
    by_cases h : n < 10
    · refine ⟨digitChar n, [], ?_, ?_⟩
      · rw [natToDigits, dif_pos h]
      · rw [digitVal_digitChar n h]; rfl
    · obtain ⟨c, cs, hcons, hdig⟩ := ih (n / 10) (Nat.div_lt_self (by omega) (by omega))
      refine ⟨c, cs ++ [digitChar (n % 10)], ?_, hdig⟩
      rw [natToDigits, dif_neg h, hcons]
      rfl

theorem signSplit_of_digit (c : Char) (cs : List Char)
    (h : (digitVal c).isSome) : signSplit (c :: cs) = (false, c :: cs) := by
  have hm : c ≠ '-' := by
    intro he; rw [he] at h; simp [digitVal] at h
  have hp : c ≠ '+' := by
    intro he; rw [he] at h; simp [digitVal] at h
  simp [signSplit, hm, hp]

/-- Round trip: `strconv.ParseInt` inverts `strconv.FormatInt` on every
value in the int64 range. -/
theorem parseInt64_formatInt (i : Int) (hlo : -(2 ^ 63) ≤ i) (hhi : i < 2 ^ 63) :
    parseInt64 (formatInt i) = .ok i := by
  by_cases hneg : i < 0
  · have hdata : (formatInt i).data = '-' :: natToDigits i.natAbs := by
      simp [formatInt, hneg]
    obtain ⟨c, cs, hcons, hdig⟩ := natToDigits_head i.natAbs
    have hsp : signSplit (formatInt i).data = (true, natToDigits i.natAbs) := by
      rw [hdata]; simp [signSplit]
    rw [parseInt64]
    simp only [hsp]
    rw [hcons]
    simp only [List.isEmpty_cons, if_false, Bool.false_eq_true]
    rw [← hcons, parseDigits_natToDigits i.natAbs 0]
    simp only [Nat.zero_mul, Nat.zero_add]
    have habs : (i.natAbs : Int) = -i := by
      omega
    have hle : (i.natAbs : Int) ≤ 2 ^ 63 := by omega
    simp only [if_true, hle, if_pos hle]
    rw [habs]
    simp
  · have hdata : (formatInt i).data = natToDigits i.toNat := by
      simp [formatInt, hneg]
    obtain ⟨c, cs, hcons, hdig⟩ := natToDigits_head i.toNat
    have hsp : signSplit (formatInt i).data = (false, natToDigits i.toNat) := by
      rw [hdata, hcons]
      exact signSplit_of_digit c cs hdig
    rw [parseInt64]
    simp only [hsp]
    rw [hcons]
    simp only [List.isEmpty_cons, if_false, Bool.false_eq_true]
    rw [← hcons, parseDigits_natToDigits i.toNat 0]
    simp only [Nat.zero_mul, Nat.zero_add]
    have htn : (i.toNat : Int) = i := by omega
    have hlt : (i.toNat : Int) < 2 ^ 63 := by omega
    simp only [if_pos hlt]
    rw [htn]

theorem parseInt64_empty : ∃ e, parseInt64 "" = .error e := by
  exact ⟨_, rfl⟩

/-- ASCII lower-casing of one character, modelling `strings.ToLower` as the
source applies it (every key it is applied to is ASCII). -/
def lowerChar (c : Char) : Char :=
  if 'A' ≤ c ∧ c ≤ 'Z' then Char.ofNat (c.toNat + 32) else c

/-- Embedding of `strings.ToLower` on ASCII strings. -/
def goToLower (s : String) : String := ⟨s.data.map lowerChar⟩

/-- Go map assignment `m[k] = v` on a string-keyed map, modelled on an
association list: overwrite the binding if the key is present, append it
otherwise. -/
def mapInsert (m : List (String × String)) (k v : String) :
    List (String × String) :=
  if m.any (fun p => p.1 == k) then
    m.map (fun p => if p.1 == k then (k, v) else p)
  else m ++ [(k, v)]

/-- Go map indexing `m[k]`, returning the zero value `""` for a missing
key. -/
def mapGet (m : List (String × String)) (k : String) : String :=
  match m.find? (fun p => p.1 == k) with
  | some p => p.2
  | none => ""

/-- Early-terminating iteration pattern of `ForeachKey` and
`ForeachBaggageItem`: the handlers in the source stop iteration by
returning an error (or false) once they have produced a result, so the
iteration yields the first key/value pair on which the body fires. -/
def foreachFind {α : Type} (m : List (String × String))
    (f : String → String → Option α) : Option α :=
  match m with
  | [] => none
  | (k, v) :: rest =>
    match f k v with
    | some a => some a
    | none => foreachFind rest f

/-- Embedding of the `spanContext` type: its only state is the
`baggageItems` string map. -/
structure spanContext where
  baggageItems : List (String × String)
  deriving DecidableEq, Repr

/-- Embedding of `spanContext.parseBaggageInt64`: scans the baggage items
for the first case-insensitive match of the key that parses as an int64;
a pair that fails to parse is skipped; the result defaults to 0. -/
def spanContext.parseBaggageInt64 (c : spanContext) (key : String) : Int :=
  (foreachFind c.baggageItems (fun k v =>
    if goToLower k = goToLower key then
      match parseInt64 v with
      | .ok i => some i
      | .error _ => none
    else none)).getD 0

/-- Embedding of `spanContext.TraceId`. -/
def spanContext.TraceId (c : spanContext) : Int := c.parseBaggageInt64 "traceid"

/-- Embedding of `spanContext.ParentId`. -/
def spanContext.ParentId (c : spanContext) : Int := c.parseBaggageInt64 "parentid"

/-- Embedding of `spanContext.SpanId`. -/
def spanContext.SpanId (c : spanContext) : Int := c.parseBaggageInt64 "spanid"

/-- Embedding of `spanContext.Resource`: the first baggage value whose
key lower-cases to "resource", defaulting to the empty string. -/
def spanContext.Resource (c : spanContext) : String :=
  (foreachFind c.baggageItems (fun k v =>
    if goToLower k = "resource" then some v else none)).getD ""

/-- The `Trace` structure of the trace package, with the fields the
adapter reads and writes (`TraceId`, `ParentId`, `SpanId`, `Resource`),
as they appear in the composite literals of `Inject`, `Extract` and
`StartSpan`. -/
structure Trace where
  TraceId : Int
  ParentId : Int
  SpanId : Int
  Resource : String
  deriving DecidableEq, Repr

/-- Modelled from the spec: `Trace.context` is repository code outside
the provided sources (only its callers appear in
`src/trace/opentracing.go`). The doc comment of `Tracer.Extract` states
that the returned SpanContext represents the parent span, `SpanId`
referring to that span's own id, so the context must carry all four
fields; we model it as the baggage map holding `traceid`, `parentid`,
`spanid` in decimal plus `resource`, mirroring `Span.contextAsParent`
with the `spanid` entry added. -/
def Trace.context (t : Trace) : spanContext :=
  ⟨[("traceid", formatInt t.TraceId), ("parentid", formatInt t.ParentId),
    ("spanid", formatInt t.SpanId), ("resource", t.Resource)]⟩

/-- Embedding of the `Span` type: it embeds a `*Trace` (whose fields it
reaches directly); the tracer handle and the ignored log lines carry no
observable state for the claims below. -/
structure Span where
  trace : Trace
  deriving DecidableEq, Repr

/-- Field access through the Go struct embedding. -/
def Span.TraceId (s : Span) : Int := s.trace.TraceId

/-- Field access through the Go struct embedding. -/
def Span.ParentId (s : Span) : Int := s.trace.ParentId

/-- Field access through the Go struct embedding. -/
def Span.Resource (s : Span) : String := s.trace.Resource

/-- Embedding of `Span.contextAsParent`: allocates a fresh `spanContext`
and fills its (empty) baggage map with `traceid`, `parentid` and
`resource` — three successive insertions of distinct keys into the new
empty map yield exactly this three-entry map. -/
def Span.contextAsParent (s : Span) : spanContext :=
  ⟨[("traceid", formatInt s.TraceId), ("parentid", formatInt s.ParentId),
    ("resource", s.Resource)]⟩

/-- Embedding of `Span.Context`, which returns `contextAsParent`. -/
def Span.Context (s : Span) : spanContext := s.contextAsParent

/-- Embedding of `Span.SetBaggageItem`: the assignment lands in the fresh
`spanContext` just built by `contextAsParent`; that context is never
stored, so the write is discarded and the method returns its receiver. -/
def Span.SetBaggageItem (s : Span) (restrictedKey value : String) : Span :=
  let c := s.contextAsParent
  let _written := mapInsert c.baggageItems restrictedKey value
  s

/-- Embedding of `Span.BaggageItem`: indexes the baggage map of a fresh
`contextAsParent` result. -/
def Span.BaggageItem (s : Span) (restrictedKey : String) : String :=
  mapGet s.contextAsParent.baggageItems restrictedKey

/-- Modelled from the spec: the trace message of the fixed
protocol-buffer sample schema (`trace_id`, `parent_id`, `span_id`,
`resource`); the `ssf` package is outside the provided sources, and the
Go field for the span id of the message is named `Id` (the source reads
`sample.Trace.Id`). -/
structure SSFTrace where
  TraceId : Int
  ParentId : Int
  Id : Int
  Resource : String
  deriving DecidableEq, Repr

/-- Modelled from the spec: the protocol-buffer sample; its trace message
is a Go pointer, hence optional, and dereferencing a missing one panics. -/
structure SSFSample where
  Trace : Option SSFTrace
  deriving DecidableEq, Repr

/-- The `format` argument of Inject and Extract, compared against
`opentracing.Binary`; TextMap and HTTPHeaders are the other builtin
formats. -/
inductive Format where
  | binary
  | textMap
  | httpHeaders
  deriving DecidableEq, Repr

/-- The dynamic type of the `carrier` argument: an `io.Writer` (with the
bytes written so far), an `io.Reader` (with the outcome ReadAll will
produce), a text-map carrier, or some carrier of any other type. -/
inductive Carrier where
  | writer (written : List Nat)
  | reader (readResult : Except GoError (List Nat))
  | textMap (m : List (String × String))
  | otherCarrier
  deriving Repr

/-- The `sm` argument of Inject: either the concrete `spanContext` of
this package or a foreign SpanContext implementation, which fails the
checked type assertion. -/
inductive SpanContextArg where
  | concrete (sc : spanContext)
  | foreign
  deriving DecidableEq, Repr

/-- Embedding of `textMapReaderWriter.CloneTo`: copies every key/value
pair of the source into the destination writer via `Set`. -/
def cloneTo (src dst : List (String × String)) : List (String × String) :=
  src.foldl (fun acc kv => mapInsert acc kv.1 kv.2) dst

/-- Embedding of `textMapReaderGet`: the first value whose key matches
the wanted key case-insensitively, `""` when none does. -/
def textMapReaderGet (m : List (String × String)) (key : String) : String :=
  (foreachFind m (fun k v =>
    if goToLower key = goToLower k then some v else none)).getD ""

/-- Body of `Tracer.Inject` (the code covered by the deferred recover).
`marshalTo` stands for `Trace.ProtoMarshalTo`, repository code outside
the provided sources; the error it may return and the bytes it writes do
not influence any claim, so it is passed in as a parameter. The checked
assertion on `sm` happens first; under the Binary format the unchecked
assertion `carrier.(io.Writer)` panics on any non-writer carrier;
otherwise any TextMapWriter carrier receives a clone of the baggage, and
every other carrier yields `opentracing.ErrUnsupportedFormat`. -/
def TracerInjectBody (marshalTo : Trace → Option GoError)
    (sm : SpanContextArg) (format : Format) (carrier : Carrier) :
    Except GoPanic (Option GoError × Carrier) :=
  match sm with
  | .foreign => .ok (some .unsupportedSpanContext, carrier)
  | .concrete sc =>
    if format = .binary then
      match carrier with
      | .writer written =>
        let t : Trace := ⟨sc.TraceId, sc.ParentId, sc.SpanId, sc.Resource⟩
        .ok (marshalTo t, .writer written)
      | _ => .error (.typeAssertion "carrier" "io.Writer")
    else
      match carrier with
      | .textMap m => .ok (none, .textMap (cloneTo sc.baggageItems m))
      | _ => .ok (some .unsupportedFormat, carrier)

/-- Embedding of `Tracer.Inject`: the deferred `recover` turns any panic
raised in the body into an `ErrContractViolation` assigned to the named
error return. Every panic in the body occurs before the carrier is
mutated, so the carrier comes back unchanged on that path. -/
def TracerInject (marshalTo : Trace → Option GoError)
    (sm : SpanContextArg) (format : Format) (carrier : Carrier) :
    Option GoError × Carrier :=
  match TracerInjectBody marshalTo sm format carrier with
  | .error p => (some (.contractViolation p), carrier)
  | .ok r => r

/-- Body of `Tracer.Extract` (the code covered by the deferred recover).
`unmarshal` stands for `proto.Unmarshal` into an `SSFSample`, third-party
code outside the provided sources, passed in as a parameter. Under the
Binary format the unchecked assertion `carrier.(io.Reader)` panics on any
non-reader carrier; reading and unmarshalling propagate their errors with
a nil context; dereferencing a missing trace message panics. Otherwise a
text-map carrier has its `traceid`, `spanid` and `parentid` fields parsed
— any parse failure yields the field-parsing error — and every other
carrier yields `opentracing.ErrUnsupportedFormat`. -/
def TracerExtractBody (unmarshal : List Nat → Except GoError SSFSample)
    (format : Format) (carrier : Carrier) :
    Except GoPanic (Option spanContext × Option GoError) :=
  if format = .binary then
    match carrier with
    | .reader readResult =>
      match readResult with
      | .error e => .ok (none, some e)
      | .ok packet =>
        match unmarshal packet with
        | .error e => .ok (none, some e)
        | .ok sample =>
          match sample.Trace with
          | none => .error (.nilPointer "sample.Trace")
          | some tr =>
            .ok (some (Trace.context ⟨tr.TraceId, tr.ParentId, tr.Id, tr.Resource⟩), none)
    | _ => .error (.typeAssertion "carrier" "io.Reader")
  else
    match carrier with
    | .textMap m =>
      match parseInt64 (textMapReaderGet m "traceid"),
            parseInt64 (textMapReaderGet m "spanid"),
            parseInt64 (textMapReaderGet m "parentid") with
      | .ok traceId, .ok spanId, .ok parentId =>
        .ok (some (Trace.context
          ⟨traceId, parentId, spanId, textMapReaderGet m "resource"⟩), none)
      | _, _, _ =>
        .ok (none, some (.strError "error parsing fields from TextMapReader"))
    | _ => .ok (none, some .unsupportedFormat)

/-- Embedding of `Tracer.Extract`: the deferred `recover` turns any panic
raised in the body into an `ErrContractViolation` assigned to the named
error return; the named context return is still nil at every panic
site. -/
def TracerExtract (unmarshal : List Nat → Except GoError SSFSample)
    (format : Format) (carrier : Carrier) :
    Option spanContext × Option GoError :=
  match TracerExtractBody unmarshal format carrier with
  | .error p => (none, some (.contractViolation p))
  | .ok r => r

/-- The configuration fields `main` reads: `SentryDsn` and
`HTTPAddress`. -/
structure Config where
  SentryDsn : String
  HTTPAddress : String
  deriving DecidableEq, Repr

/-- Observable behaviour of one run of `main`: how the process ends and
which side effects the run performs on the way. `exitCode = some c` means
the process terminated with exit code `c` (`logrus.Fatal` calls
`os.Exit(1)`); `exitCode = none` with `blockedForever` means the process
stays alive in the empty `select`. -/
structure MainTrace where
  exitCode : Option Nat
  serverStarted : Bool
  sentryClientCreated : Bool
  sentryCaptureCalled : Bool
  captureOnNilClient : Bool
  httpServing : Bool
  blockedForever : Bool
  deriving DecidableEq, Repr

/-- The command-line flags `main` registers: exactly the single string
flag `f` (the config path). -/
def registeredFlags : List String := ["f"]

/-- Embedding of `main` from `src/unnamed/part_000`. The external
collaborators are parameters: `readConfig` is `veneur.ReadConfig`,
`newFromConfig` is `veneur.NewFromConfig` (its success value carries no
state the claims need), and `ravenNew` is `raven.New`. The flow mirrors
the source: an unset or empty `-f` flag is fatal; a config read error is
fatal; on a server-initialization error a Sentry client is created only
for a nonempty DSN, yet `sentry.Capture` is invoked unconditionally —
on the nil client when no client was created — before the fatal exit;
on success the server starts and either serves HTTP (nonempty address)
or blocks forever in the empty `select`. -/
def veneurMain (flagF : String)
    (readConfig : String → Except GoError Config)
    (newFromConfig : Config → Except GoError Unit)
    (ravenNew : String → Except GoError Unit) : MainTrace :=
  if flagF = "" then
    { exitCode := some 1, serverStarted := false, sentryClientCreated := false,
      sentryCaptureCalled := false, captureOnNilClient := false,
      httpServing := false, blockedForever := false }
  else
    match readConfig flagF with
    | .error _ =>
      { exitCode := some 1, serverStarted := false, sentryClientCreated := false,
        sentryCaptureCalled := false, captureOnNilClient := false,
        httpServing := false, blockedForever := false }
    | .ok conf =>
      match newFromConfig conf with
      | .error _ =>
        let created : Bool :=
          conf.SentryDsn != "" && (ravenNew conf.SentryDsn matches .ok _)
        { exitCode := some 1, serverStarted := false,
          sentryClientCreated := created, sentryCaptureCalled := true,
          captureOnNilClient := !created,
          httpServing := false, blockedForever := false }
      | .ok _ =>
        if conf.HTTPAddress != "" then
          { exitCode := none, serverStarted := true,
            sentryClientCreated := false, sentryCaptureCalled := false,
            captureOnNilClient := false, httpServing := true,
            blockedForever := false }
        else
          { exitCode := none, serverStarted := true,
            sentryClientCreated := false, sentryCaptureCalled := false,
            captureOnNilClient := false, httpServing := false,
            blockedForever := true }

/-- Modelled from the spec: the metric kinds of the data model; the
aggregation code is outside the provided sources. -/
inductive MetricKind where
  | counter
  | gauge
  | set
  | histogram
  | timer
  | status
  deriving DecidableEq, Repr

/-- Modelled from the spec: a parsed sample; `value` and `sampleRate` are
not part of the metric identity. -/
structure Sample where
  name : String
  kind : MetricKind
  tags : List String
  value : ℚ
  sampleRate : ℚ
  deriving DecidableEq, Repr

/-- Lexicographic string order as a boolean, used to canonicalize tag
order. -/
def strLeB (a b : String) : Bool := a == b || decide (a < b)

/-- Insertion of a tag into a lexicographically sorted tag list. -/
def insertSorted (x : String) : List String → List String
  | [] => [x]
  | y :: ys => if strLeB x y then x :: y :: ys else y :: insertSorted x ys

/-- Modelled from the spec: tag canonicalization by lexicographic sort. -/
def sortTags (tags : List String) : List String :=
  tags.foldr insertSorted []

/-- Modelled from the spec: the canonical MetricKey tuple
`(name, kind, sorted_tags)`; the digest and routing code is outside the
provided sources. -/
def metricKey (s : Sample) : String × MetricKind × List String :=
  (s.name, s.kind, sortTags s.tags)

/-- Modelled from the spec: a stable byte serialization of the canonical
MetricKey (name bytes, a separator, a kind byte, a separator, each sorted
tag followed by a separator). -/
def serializeKey (k : String × MetricKind × List String) : List Nat :=
  let kindByte : MetricKind → Nat := fun kd =>
    match kd with
    | .counter => 1
    | .gauge => 2
    | .set => 3
    | .histogram => 4
    | .timer => 5
    | .status => 6
  (k.1.data.map Char.toNat) ++ [0, kindByte k.2.1, 0] ++
    (k.2.2.map (fun t => t.data.map Char.toNat ++ [1])).flatten

/-- Modelled from the spec: the fixed-seeded 64-bit non-cryptographic
mixer (FNV-1a with the standard offset basis and prime); the hash takes
no per-process seed, so it is a pure function of the serialized key. -/
def fnv1a64 (bytes : List Nat) : Nat :=
  bytes.foldl (fun h b => ((h ^^^ b % 256) * 1099511628211) % 2 ^ 64)
    14695981039346656037

/-- Modelled from the spec: the worker-routing digest of a sample is the
64-bit hash of its serialized canonical MetricKey. -/
def digest (s : Sample) : Nat := fnv1a64 (serializeKey (metricKey s))

/-- Modelled from the spec: the worker index of a sample among N workers
is `digest mod N`. -/
def workerIndex (s : Sample) (n : Nat) : Nat := digest s % n

/-- Nearest-rank index used by the quantile queries: for a container of
`n` elements, quantile `q` reads the element at zero-based index
`clamp(ceil(q*n), 1, n) - 1`. -/
def rankIndex (q : ℚ) (n : Nat) : Nat :=
  min n (max 1 (Int.toNat ⌈q * (n : ℚ)⌉)) - 1

/-- Modelled from the spec: the distribution sketch for Histogram/Timer
values. Inserted positive values are coarsened to power-of-two bucket
indices (a fixed relative-error approximation; the spec's
percentile_tolerance fixes the base, instantiated here as 2), and the
sketch state is the multiset of occupied bucket indices with their
counts. -/
structure DSketch where
  buckets : Multiset Int
  deriving DecidableEq

/-- Modelled from the spec: the bucket index of an inserted value. -/
def bucketIndex (x : ℚ) : Int := Int.log 2 x

/-- Modelled from the spec: `insert(x)` adds the bucket of `x`. -/
def DSketch.insert (s : DSketch) (x : ℚ) : DSketch :=
  ⟨bucketIndex x ::ₘ s.buckets⟩

/-- Modelled from the spec: `merge(other)` adds the bucket counts
pointwise. -/
def DSketch.merge (a b : DSketch) : DSketch :=
  ⟨a.buckets + b.buckets⟩

/-- Modelled from the spec: `quantile(q)` sorts the occupied buckets and
returns the representative value (the power of two) of the bucket at the
nearest rank; 0 on an empty sketch. -/
def DSketch.quantile (s : DSketch) (q : ℚ) : ℚ :=
  let l := Multiset.sort (· ≤ ·) s.buckets
  if l.isEmpty then 0
  else (2 : ℚ) ^ (l.getD (rankIndex q l.length) 0)

/-- Modelled from the spec: the Histogram/Timer accumulator — an
approximate-histogram sketch plus min, max, count and sum. The sketch
part is modelled exactly (it keeps the inserted values), which realizes
the spec's quantile interface; min, max, count and sum are maintained as
their own fields, as the spec lists them. -/
structure HistoAcc where
  values : List ℚ
  min : ℚ
  max : ℚ
  count : Nat
  sum : ℚ
  deriving DecidableEq, Repr

/-- Modelled from the spec: the accumulator created lazily before the
first sample. -/
def HistoAcc.empty : HistoAcc :=
  { values := [], min := 0, max := 0, count := 0, sum := 0 }

/-- Modelled from the spec: inserting one sample value updates the sketch
and the tracked min, max, count and sum. -/
def HistoAcc.insert (a : HistoAcc) (x : ℚ) : HistoAcc :=
  { values := a.values ++ [x]
    min := if a.count = 0 then x else Min.min a.min x
    max := if a.count = 0 then x else Max.max a.max x
    count := a.count + 1
    sum := a.sum + x }

/-- An accumulator as reachable by the engine: every sample value folded
into the lazily created empty accumulator. -/
def histoFromList (vs : List ℚ) : HistoAcc :=
  vs.foldl HistoAcc.insert HistoAcc.empty

/-- Modelled from the spec: `quantile(q)` of the accumulator reads the
nearest-rank element of the sorted inserted values; 0 before any
insert. -/
def HistoAcc.quantile (a : HistoAcc) (q : ℚ) : ℚ :=
  let l := Multiset.sort (· ≤ ·) (Multiset.ofList a.values)
  l.getD (rankIndex q l.length) 0

/-- Claim C1 counterexample: at a concrete configuration whose
`sentry_dsn` is empty, on the server-initialization failure path of
`main` no Sentry client is created, yet the Sentry capture call is still
performed — refuting the claim that no capture call happens. -/
theorem C1_counterexample :
    (veneurMain "veneur.yaml" (fun _ => .ok ⟨"", ""⟩)
      (fun _ => .error (.strError "Error initializing server"))
      (fun _ => .ok ())).sentryClientCreated = false ∧
    (veneurMain "veneur.yaml" (fun _ => .ok ⟨"", ""⟩)
      (fun _ => .error (.strError "Error initializing server"))
      (fun _ => .ok ())).sentryCaptureCalled = true := by
  exact ⟨rfl, rfl⟩

/-- Claim C1 (amended): for every configuration in which `sentry_dsn` is
the empty string, on the server-initialization failure path in `main` no
Sentry client is created, but the Sentry capture call is nevertheless
performed, on the nil (uninitialized) client, before the fatal exit. -/
theorem C1_empty_dsn_still_captures (flagF : String)
    (rc : String → Except GoError Config)
    (nfc : Config → Except GoError Unit)
    (rn : String → Except GoError Unit) (conf : Config) (e : GoError)
    (hf : flagF ≠ "") (hrc : rc flagF = .ok conf)
    (hnfc : nfc conf = .error e) (hdsn : conf.SentryDsn = "") :
    (veneurMain flagF rc nfc rn).sentryClientCreated = false ∧
    (veneurMain flagF rc nfc rn).sentryCaptureCalled = true ∧
    (veneurMain flagF rc nfc rn).captureOnNilClient = true := by
  simp [veneurMain, hf, hrc, hnfc, hdsn]

theorem C1_witness :
    (veneurMain "veneur.yaml" (fun _ => .ok (Config.mk "" ""))
      (fun _ => .error (.strError "boom")) (fun _ => .ok ())).sentryClientCreated = false ∧
    (veneurMain "veneur.yaml" (fun _ => .ok (Config.mk "" ""))
      (fun _ => .error (.strError "boom")) (fun _ => .ok ())).sentryCaptureCalled = true ∧
    (veneurMain "veneur.yaml" (fun _ => .ok (Config.mk "" ""))
      (fun _ => .error (.strError "boom")) (fun _ => .ok ())).captureOnNilClient = true :=
  C1_empty_dsn_still_captures "veneur.yaml" (fun _ => .ok (Config.mk "" ""))
    (fun _ => .error (.strError "boom")) (fun _ => .ok ())
    (Config.mk "" "") (.strError "boom") (by decide) rfl rfl rfl

/-- Claim C2: for every Span, key and value, `Span.SetBaggageItem` leaves
all observable state of the span unchanged — a subsequent `BaggageItem`
and a subsequent `Context` return exactly what they would have returned
had `SetBaggageItem` never been called, because the write goes to a
freshly constructed spanContext that is discarded. -/
theorem C2_setBaggageItem_frame (s : Span) (k v k2 : String) :
    (s.SetBaggageItem k v).BaggageItem k2 = s.BaggageItem k2 ∧
    (s.SetBaggageItem k v).Context = s.Context ∧
    s.SetBaggageItem k v = s := by
  exact ⟨rfl, rfl, rfl⟩

/-- Claim C4: the command line is the single flag `-f` giving the config
path; if the flag is absent (its default empty value) or the named config
file cannot be read, the process terminates with exit code 1 before any
server is started. -/
theorem C4_cli_config_fatal :
    registeredFlags = ["f"] ∧
    ∀ (flagF : String) (rc : String → Except GoError Config)
      (nfc : Config → Except GoError Unit) (rn : String → Except GoError Unit),
      (flagF = "" ∨ ∃ e, rc flagF = .error e) →
      (veneurMain flagF rc nfc rn).exitCode = some 1 ∧
      (veneurMain flagF rc nfc rn).serverStarted = false := by
  refine ⟨rfl, ?_⟩
  intro flagF rc nfc rn h
  rcases h with h | ⟨e, he⟩
  · subst h
    exact ⟨rfl, rfl⟩
  · by_cases hf : flagF = ""
    · subst hf
      exact ⟨rfl, rfl⟩
    · simp [veneurMain, hf, he]

theorem C4_witness :
    (veneurMain "" (fun _ => .ok (Config.mk "" ""))
      (fun _ => .ok ()) (fun _ => .ok ())).exitCode = some 1 ∧
    (veneurMain "" (fun _ => .ok (Config.mk "" ""))
      (fun _ => .ok ()) (fun _ => .ok ())).serverStarted = false :=
  C4_cli_config_fatal.2 "" (fun _ => .ok (Config.mk "" ""))
    (fun _ => .ok ()) (fun _ => .ok ()) (Or.inl rfl)

/-- Claim C7: on a successful startup, if the configured HTTP listen
address is empty the HTTP admin endpoint is disabled but the process
keeps running — it blocks forever after starting the server rather than
exiting — and if the address is non-empty the HTTP endpoint is served. -/
theorem C7_http_or_block (flagF : String)
    (rc : String → Except GoError Config)
    (nfc : Config → Except GoError Unit)
    (rn : String → Except GoError Unit) (conf : Config)
    (hf : flagF ≠ "") (hrc : rc flagF = .ok conf) (hnfc : nfc conf = .ok ()) :
    (conf.HTTPAddress = "" →
      (veneurMain flagF rc nfc rn).blockedForever = true ∧
      (veneurMain flagF rc nfc rn).httpServing = false ∧
      (veneurMain flagF rc nfc rn).serverStarted = true ∧
      (veneurMain flagF rc nfc rn).exitCode = none) ∧
    (conf.HTTPAddress ≠ "" →
      (veneurMain flagF rc nfc rn).httpServing = true ∧
      (veneurMain flagF rc nfc rn).serverStarted = true ∧
      (veneurMain flagF rc nfc rn).exitCode = none) := by
  constructor
  · intro hempty
    simp [veneurMain, hf, hrc, hnfc, hempty]
  · intro hne
    simp [veneurMain, hf, hrc, hnfc, hne]

theorem C7_witness :
    ((veneurMain "veneur.yaml" (fun _ => .ok (Config.mk "" ""))
        (fun _ => .ok ()) (fun _ => .ok ())).blockedForever = true ∧
      (veneurMain "veneur.yaml" (fun _ => .ok (Config.mk "" ""))
        (fun _ => .ok ()) (fun _ => .ok ())).httpServing = false ∧
      (veneurMain "veneur.yaml" (fun _ => .ok (Config.mk "" ""))
        (fun _ => .ok ()) (fun _ => .ok ())).serverStarted = true ∧
      (veneurMain "veneur.yaml" (fun _ => .ok (Config.mk "" ""))
        (fun _ => .ok ()) (fun _ => .ok ())).exitCode = none) ∧
    ((veneurMain "veneur.yaml" (fun _ => .ok (Config.mk "" "0.0.0.0:8127"))
        (fun _ => .ok ()) (fun _ => .ok ())).httpServing = true ∧
      (veneurMain "veneur.yaml" (fun _ => .ok (Config.mk "" "0.0.0.0:8127"))
        (fun _ => .ok ()) (fun _ => .ok ())).serverStarted = true ∧
      (veneurMain "veneur.yaml" (fun _ => .ok (Config.mk "" "0.0.0.0:8127"))
        (fun _ => .ok ()) (fun _ => .ok ())).exitCode = none) :=
  ⟨(C7_http_or_block "veneur.yaml" (fun _ => .ok (Config.mk "" ""))
      (fun _ => .ok ()) (fun _ => .ok ()) (Config.mk "" "")
      (by decide) rfl rfl).1 rfl,
   (C7_http_or_block "veneur.yaml" (fun _ => .ok (Config.mk "" "0.0.0.0:8127"))
      (fun _ => .ok ()) (fun _ => .ok ()) (Config.mk "" "0.0.0.0:8127")
      (by decide) rfl rfl).2 (by decide)⟩

/-- Claim C8: distribution-sketch merge is associative and commutative —
for any two distribution sketches A and B and every quantile q,
`merge(A,B).quantile(q)` equals `merge(B,A).quantile(q)` bitwise (here:
as identical rational values, since the sketch states themselves are
equal), and merging in any grouping yields the same sketch state. -/
theorem C8_sketch_merge_comm_assoc :
    (∀ (A B : DSketch) (q : ℚ),
      (A.merge B).quantile q = (B.merge A).quantile q) ∧
    (∀ A B : DSketch, A.merge B = B.merge A) ∧
    (∀ A B C : DSketch, (A.merge B).merge C = A.merge (B.merge C)) := by
  have hcomm : ∀ A B : DSketch, A.merge B = B.merge A := by
    intro A B
    exact congrArg DSketch.mk (add_comm A.buckets B.buckets)
  refine ⟨?_, hcomm, ?_⟩
  · intro A B q
    rw [hcomm A B]
  · intro A B C
    exact congrArg DSketch.mk (add_assoc A.buckets B.buckets C.buckets)

/-- Claim C9: the worker-routing digest is deterministic across runs and
processes — the digest is a pure function of the canonical MetricKey with
a fixed seed and no per-process input, so for all samples with equal
MetricKey, `digest(s) mod N` yields the same worker index in any two
invocations. -/
theorem C9_digest_stable (s1 s2 : Sample) (n : Nat)
    (h : metricKey s1 = metricKey s2) :
    workerIndex s1 n = workerIndex s2 n := by
  unfold workerIndex digest
  rw [h]

theorem C9_witness :
    workerIndex (Sample.mk "api.latency" .timer ["env:prod"] 1 1) 4 =
      workerIndex (Sample.mk "api.latency" .timer ["env:prod"] 2 (1/2)) 4 :=
  C9_digest_stable (Sample.mk "api.latency" .timer ["env:prod"] 1 1)
    (Sample.mk "api.latency" .timer ["env:prod"] 2 (1/2)) 4 rfl

/-- Claim C3: `Tracer.Inject` and `Tracer.Extract` never let a panic
escape — for every span context, format and carrier argument (including
carriers of the wrong dynamic type for the Binary format), any panic
raised during the body is recovered by the deferred handler and the call
returns an `ErrContractViolation` error value instead. -/
theorem C3_panics_recovered :
    ∀ (marshalTo : Trace → Option GoError)
      (unmarshal : List Nat → Except GoError SSFSample)
      (sm : SpanContextArg) (format : Format) (carrier : Carrier)
      (p p2 : GoPanic),
      (TracerInjectBody marshalTo sm format carrier = .error p →
        TracerInject marshalTo sm format carrier =
          (some (.contractViolation p), carrier)) ∧
      (TracerExtractBody unmarshal format carrier = .error p2 →
        TracerExtract unmarshal format carrier =
          (none, some (.contractViolation p2))) := by
  intro marshalTo unmarshal sm format carrier p p2
  constructor
  · intro h
    unfold TracerInject
    rw [h]
  · intro h
    unfold TracerExtract
    rw [h]

theorem C3_witness :
    TracerInject (fun _ => none) (.concrete ⟨[]⟩) .binary (.textMap []) =
      (some (.contractViolation (.typeAssertion "carrier" "io.Writer")),
        .textMap []) ∧
    TracerExtract (fun _ => .error (.strError "x")) .binary (.textMap []) =
      (none, some (.contractViolation (.typeAssertion "carrier" "io.Reader"))) :=
  ⟨(C3_panics_recovered (fun _ => none) (fun _ => .error (.strError "x"))
      (.concrete ⟨[]⟩) .binary (.textMap [])
      (.typeAssertion "carrier" "io.Writer")
      (.typeAssertion "carrier" "io.Reader")).1 rfl,
   (C3_panics_recovered (fun _ => none) (fun _ => .error (.strError "x"))
      (.concrete ⟨[]⟩) .binary (.textMap [])
      (.typeAssertion "carrier" "io.Writer")
      (.typeAssertion "carrier" "io.Reader")).2 rfl⟩

theorem context_TraceId (t : Trace) (h1 : -(2 ^ 63) ≤ t.TraceId)
    (h2 : t.TraceId < 2 ^ 63) : (t.context).TraceId = t.TraceId := by
  unfold Trace.context spanContext.TraceId spanContext.parseBaggageInt64
  simp +decide [foreachFind, parseInt64_formatInt t.TraceId h1 h2]

theorem context_ParentId (t : Trace) (h1 : -(2 ^ 63) ≤ t.ParentId)
    (h2 : t.ParentId < 2 ^ 63) : (t.context).ParentId = t.ParentId := by
  unfold Trace.context spanContext.ParentId spanContext.parseBaggageInt64
  simp +decide [foreachFind, parseInt64_formatInt t.ParentId h1 h2]

theorem context_SpanId (t : Trace) (h1 : -(2 ^ 63) ≤ t.SpanId)
    (h2 : t.SpanId < 2 ^ 63) : (t.context).SpanId = t.SpanId := by
  unfold Trace.context spanContext.SpanId spanContext.parseBaggageInt64
  simp +decide [foreachFind, parseInt64_formatInt t.SpanId h1 h2]

theorem context_Resource (t : Trace) : (t.context).Resource = t.Resource := by
  unfold Trace.context spanContext.Resource
  simp +decide [foreachFind]

theorem extract_textMap_spanid_error
    (unmarshal : List Nat → Except GoError SSFSample)
    (m : List (String × String)) (e : GoError)
    (h : parseInt64 (textMapReaderGet m "spanid") = .error e) :
    TracerExtract unmarshal .textMap (.textMap m) =
      (none, some (.strError "error parsing fields from TextMapReader")) := by
  unfold TracerExtract TracerExtractBody
  cases h1 : parseInt64 (textMapReaderGet m "traceid") <;>
    cases h3 : parseInt64 (textMapReaderGet m "parentid") <;>
      simp [h, h1, h3]

/-- Claim C6: for every Span, the span context returned by `Span.Context`
carries exactly the three baggage keys traceid, parentid and resource,
holding the decimal rendering of the TraceId and ParentId fields and the
Resource string; consequently `SpanId` on that context returns 0, and
`Tracer.Extract` from a text map into which that context was injected
returns an error, the spanid key being absent. -/
theorem C6_context_has_no_spanid (s : Span) :
    (s.Context).baggageItems =
      [("traceid", formatInt s.TraceId), ("parentid", formatInt s.ParentId),
       ("resource", s.Resource)] ∧
    (s.Context).SpanId = 0 ∧
    ∀ (marshalTo : Trace → Option GoError)
      (unmarshal : List Nat → Except GoError SSFSample),
      TracerExtract unmarshal .textMap
        (TracerInject marshalTo (.concrete s.Context) .textMap (.textMap [])).2 =
      (none, some (.strError "error parsing fields from TextMapReader")) := by
  refine ⟨rfl, rfl, ?_⟩
  intro marshalTo unmarshal
  have hinj : (TracerInject marshalTo (.concrete s.Context) .textMap
      (.textMap [])).2 =
      Carrier.textMap [("traceid", formatInt s.TraceId),
        ("parentid", formatInt s.ParentId), ("resource", s.Resource)] := rfl
  rw [hinj]
  apply extract_textMap_spanid_error unmarshal _
    (.strError "strconv.ParseInt: invalid syntax")
  have hget : textMapReaderGet [("traceid", formatInt s.TraceId),
      ("parentid", formatInt s.ParentId), ("resource", s.Resource)]
      "spanid" = "" := rfl
  rw [hget]
  rfl

/-- Claim C5: for every binary carrier whose bytes unmarshal as the trace
protocol-buffer sample (with its trace message present and its id fields
in int64 range), `Tracer.Extract` with the Binary format returns without
error a span context whose TraceId, ParentId, SpanId and Resource equal
the trace_id, parent_id, span_id (Go field Id) and resource fields of the
sample; if reading the carrier or unmarshalling fails, it returns a nil
context and that error. -/
theorem C5_extract_binary :
    (∀ (unmarshal : List Nat → Except GoError SSFSample) (packet : List Nat)
       (sample : SSFSample) (tr : SSFTrace),
       unmarshal packet = .ok sample → sample.Trace = some tr →
       -(2 ^ 63) ≤ tr.TraceId → tr.TraceId < 2 ^ 63 →
       -(2 ^ 63) ≤ tr.ParentId → tr.ParentId < 2 ^ 63 →
       -(2 ^ 63) ≤ tr.Id → tr.Id < 2 ^ 63 →
       ∃ c : spanContext,
         TracerExtract unmarshal .binary (.reader (.ok packet)) =
           (some c, none) ∧
         c.TraceId = tr.TraceId ∧ c.ParentId = tr.ParentId ∧
         c.SpanId = tr.Id ∧ c.Resource = tr.Resource) ∧
    (∀ (unmarshal : List Nat → Except GoError SSFSample) (e : GoError),
       TracerExtract unmarshal .binary (.reader (.error e)) =
         (none, some e)) ∧
    (∀ (unmarshal : List Nat → Except GoError SSFSample) (packet : List Nat)
       (e : GoError), unmarshal packet = .error e →
       TracerExtract unmarshal .binary (.reader (.ok packet)) =
         (none, some e)) := by
  refine ⟨?_, ?_, ?_⟩
  · intro unmarshal packet sample tr hu ht ha hb hc hd he hf
    refine ⟨Trace.context ⟨tr.TraceId, tr.ParentId, tr.Id, tr.Resource⟩,
      ?_, ?_, ?_, ?_, ?_⟩
    · unfold TracerExtract TracerExtractBody
      simp [hu, ht]
    · exact context_TraceId ⟨tr.TraceId, tr.ParentId, tr.Id, tr.Resource⟩ ha hb
    · exact context_ParentId ⟨tr.TraceId, tr.ParentId, tr.Id, tr.Resource⟩ hc hd
    · exact context_SpanId ⟨tr.TraceId, tr.ParentId, tr.Id, tr.Resource⟩ he hf
    · exact context_Resource ⟨tr.TraceId, tr.ParentId, tr.Id, tr.Resource⟩
  · intro unmarshal e
    rfl
  · intro unmarshal packet e hu
    unfold TracerExtract TracerExtractBody
    simp [hu]

theorem C5_witness :
    ∃ c : spanContext,
      TracerExtract (fun _ => .ok (SSFSample.mk (some (SSFTrace.mk 7 5 9 "db.query"))))
        .binary (.reader (.ok [])) = (some c, none) ∧
      c.TraceId = (SSFTrace.mk 7 5 9 "db.query").TraceId ∧
      c.ParentId = (SSFTrace.mk 7 5 9 "db.query").ParentId ∧
      c.SpanId = (SSFTrace.mk 7 5 9 "db.query").Id ∧
      c.Resource = (SSFTrace.mk 7 5 9 "db.query").Resource :=
  C5_extract_binary.1
    (fun _ => .ok (SSFSample.mk (some (SSFTrace.mk 7 5 9 "db.query")))) []
    (SSFSample.mk (some (SSFTrace.mk 7 5 9 "db.query")))
    (SSFTrace.mk 7 5 9 "db.query") rfl rfl
    (by norm_num) (by norm_num) (by norm_num) (by norm_num)
    (by norm_num) (by norm_num)

theorem histo_foldl_values (vs : List ℚ) :
    ∀ a : HistoAcc, (vs.foldl HistoAcc.insert a).values = a.values ++ vs := by
  induction vs with
  | nil => intro a; simp
  | cons x xs ih =>
    intro a
    simp only [List.foldl_cons, ih, HistoAcc.insert]
    simp

theorem histoFromList_values (vs : List ℚ) : (histoFromList vs).values = vs := by
  unfold histoFromList
  rw [histo_foldl_values vs HistoAcc.empty]
  simp [HistoAcc.empty]

theorem histo_foldl_bounds (vs : List ℚ) :
    ∀ a : HistoAcc, a.count = a.values.length →
      (∀ y ∈ a.values, a.min ≤ y ∧ y ≤ a.max) →
      ∀ y ∈ (vs.foldl HistoAcc.insert a).values,
        (vs.foldl HistoAcc.insert a).min ≤ y ∧
        y ≤ (vs.foldl HistoAcc.insert a).max := by
  induction vs with
  | nil => intro a _ hb; exact hb
  | cons x xs ih =>
    intro a hc hb
    simp only [List.foldl_cons]
    apply ih
    · simp [HistoAcc.insert, hc]
    · intro y hy
      simp only [HistoAcc.insert, List.mem_append, List.mem_singleton] at hy
      rcases hy with hy | hy
      · have hne : a.values ≠ [] := by
          intro h0
          rw [h0] at hy
          exact absurd hy (List.not_mem_nil y)
        have hcne : ¬ a.count = 0 := by
          rw [hc]
          simpa using hne
        obtain ⟨h1, h2⟩ := hb y hy
        constructor
        · simp only [HistoAcc.insert, if_neg hcne]
          exact le_trans (min_le_left _ _) h1
        · simp only [HistoAcc.insert, if_neg hcne]
          exact le_trans h2 (le_max_left _ _)
      · subst hy
        by_cases hc0 : a.count = 0
        · constructor <;> simp [HistoAcc.insert, hc0]
        · constructor
          · simp only [HistoAcc.insert, if_neg hc0]
            exact min_le_right _ _
          · simp only [HistoAcc.insert, if_neg hc0]
            exact le_max_right _ _

theorem histoFromList_bounds (vs : List ℚ) :
    ∀ y ∈ (histoFromList vs).values,
      (histoFromList vs).min ≤ y ∧ y ≤ (histoFromList vs).max := by
  unfold histoFromList
  apply histo_foldl_bounds vs HistoAcc.empty rfl
  intro y hy
  simp [HistoAcc.empty] at hy

theorem rankIndex_lt (q : ℚ) (n : Nat) (hn : 0 < n) : rankIndex q n < n := by
  unfold rankIndex
  have h1 : 1 ≤ min n (max 1 (Int.toNat ⌈q * (n : ℚ)⌉)) :=
    le_min hn (le_max_left 1 _)
  have h2 : min n (max 1 (Int.toNat ⌈q * (n : ℚ)⌉)) ≤ n := min_le_left _ _
  omega

theorem rankIndex_mono (n : Nat) (q1 q2 : ℚ) (h : q1 ≤ q2) :
    rankIndex q1 n ≤ rankIndex q2 n := by
  unfold rankIndex
  have hc : ⌈q1 * (n : ℚ)⌉ ≤ ⌈q2 * (n : ℚ)⌉ :=
    Int.ceil_le_ceil (mul_le_mul_of_nonneg_right h (by positivity))
  have ht : Int.toNat ⌈q1 * (n : ℚ)⌉ ≤ Int.toNat ⌈q2 * (n : ℚ)⌉ :=
    Int.toNat_le_toNat hc
  have hm := min_le_min (le_refl n) (max_le_max (le_refl 1) ht)
  omega

/-- Claim C10: for every Histogram/Timer accumulator (reachable by
folding a nonempty sample list into the empty accumulator) and every
quantile q, the quantile estimate satisfies min ≤ quantile(q) ≤ max, and
quantile is monotone in its argument: quantile(q1) ≤ quantile(q2)
whenever q1 ≤ q2. -/
theorem C10_quantile_bounds_mono (vs : List ℚ) (hvs : vs ≠ [])
    (q q1 q2 : ℚ) (hq : q1 ≤ q2) :
    (histoFromList vs).min ≤ (histoFromList vs).quantile q ∧
    (histoFromList vs).quantile q ≤ (histoFromList vs).max ∧
    (histoFromList vs).quantile q1 ≤ (histoFromList vs).quantile q2 := by
  have hlen : (Multiset.sort (· ≤ ·)
      (Multiset.ofList (histoFromList vs).values)).length = vs.length := by
    rw [Multiset.length_sort]
    simp [histoFromList_values]
  have hpos : 0 < (Multiset.sort (· ≤ ·)
      (Multiset.ofList (histoFromList vs).values)).length := by
    rw [hlen]
    exact List.length_pos.mpr hvs
  have hquant : ∀ r : ℚ, (histoFromList vs).quantile r =
      (Multiset.sort (· ≤ ·) (Multiset.ofList (histoFromList vs).values)).getD
        (rankIndex r (Multiset.sort (· ≤ ·)
          (Multiset.ofList (histoFromList vs).values)).length) 0 := by
    intro r
    rfl
  have hmem : ∀ r : ℚ, (histoFromList vs).quantile r ∈ (histoFromList vs).values := by
    intro r
    rw [hquant r,
      List.getD_eq_getElem _ 0 (rankIndex_lt r _ hpos)]
    have hm := List.getElem_mem (rankIndex_lt r _ hpos)
    rw [Multiset.mem_sort] at hm
    simpa using hm
  refine ⟨(histoFromList_bounds vs _ (hmem q)).1,
    (histoFromList_bounds vs _ (hmem q)).2, ?_⟩
  rw [hquant q1, hquant q2,
    List.getD_eq_getElem _ 0 (rankIndex_lt q1 _ hpos),
    List.getD_eq_getElem _ 0 (rankIndex_lt q2 _ hpos)]
  have hrel := @List.Sorted.rel_get_of_le ℚ (· ≤ ·) _
    (Multiset.sort (· ≤ ·) (Multiset.ofList (histoFromList vs).values))
    (Multiset.sort_sorted (· ≤ ·) _)
    ⟨rankIndex q1 _, rankIndex_lt q1 _ hpos⟩
    ⟨rankIndex q2 _, rankIndex_lt q2 _ hpos⟩
    (Fin.mk_le_mk.mpr (rankIndex_mono _ q1 q2 hq))
  simpa [List.get_eq_getElem] using hrel

theorem C10_witness :
    (histoFromList [3, 1, 2]).min ≤ (histoFromList [3, 1, 2]).quantile (1/2) ∧
    (histoFromList [3, 1, 2]).quantile (1/2) ≤ (histoFromList [3, 1, 2]).max ∧
    (histoFromList [3, 1, 2]).quantile (1/4) ≤ (histoFromList [3, 1, 2]).quantile (3/4) :=
  C10_quantile_bounds_mono [3, 1, 2] (List.cons_ne_nil 3 [1, 2])
    (1/2) (1/4) (3/4) (by norm_num)
